import Mathlib

/-!
Verification of the wolfserve web gateway.

Shallow embedding of the parts of the program that the checked properties
concern: the Apache-compatible rewrite/redirect engine and the `.htaccess`
parser (`src/apache.rs`), the startup port-collection loop and the request
handler (`src/main.rs`), and the backend response parser
`parse_php_response` (`src/main.rs`).

External effects are abstracted as oracles: regex compilation/matching
(the `regex` crate) is a parameter `rx : RegexEngine`, and filesystem
queries are a parameter `fs : FsOracle`.  All string manipulation is
re-implemented structurally (fuel-based where needed) with Rust `str`
semantics so concrete inputs evaluate inside the kernel.
-/

namespace Wolfserve

/-! ## Rust-style string primitives (char-level models of `str` methods) -/

/-- Model of `char::to_ascii_lowercase` (ASCII-only lowering, which is what
`eq_ignore_ascii_case` uses; `to_uppercase`/`to_lowercase` coincide with the
ASCII maps on all inputs appearing here). -/
def lowerChar (c : Char) : Char :=
  if 65 ≤ c.toNat ∧ c.toNat ≤ 90 then Char.ofNat (c.toNat + 32) else c

def upperChar (c : Char) : Char :=
  if 97 ≤ c.toNat ∧ c.toNat ≤ 122 then Char.ofNat (c.toNat - 32) else c

def lowerStr (s : String) : String := ⟨s.data.map lowerChar⟩

def upperStr (s : String) : String := ⟨s.data.map upperChar⟩

/-- Model of `str::eq_ignore_ascii_case`. -/
def eqIgnoreAsciiCase (s t : String) : Bool := lowerStr s == lowerStr t

/-- Model of `str::starts_with`. -/
def strStartsWith (s p : String) : Bool := p.data.isPrefixOf s.data

/-- Model of `str::ends_with`. -/
def strEndsWith (s p : String) : Bool := p.data.isSuffixOf s.data

/-- Model of `str::trim` (ASCII whitespace, as in all inputs here). -/
def strTrim (s : String) : String :=
  ⟨((s.data.dropWhile Char.isWhitespace).reverse.dropWhile Char.isWhitespace).reverse⟩

/-- Drop the first `n` characters (model of byte slicing on ASCII data). -/
def strDrop (s : String) (n : Nat) : String := ⟨s.data.drop n⟩

/-- Model of `str::trim_start_matches('/')`. -/
def trimLeadingSlashes (s : String) : String :=
  ⟨s.data.dropWhile (fun c => c == '/')⟩

/-- Model of `str::contains(char)`. -/
def strContainsChar (s : String) (c : Char) : Bool := s.data.contains c

/-- `hasDD l = true` iff `l` contains two adjacent dots, i.e. the string
contains `".."` as a substring — the check done by `handle_request`. -/
def hasDD : List Char → Bool
  | c1 :: c2 :: rest => (c1 == '.' && c2 == '.') || hasDD (c2 :: rest)
  | _ => false

/-- First index at which `sub` occurs in the list (model of `str::find`). -/
def findSubAux (sub : List Char) : List Char → Option Nat
  | [] => if sub.isEmpty then some 0 else none
  | c :: rest =>
    if sub.isPrefixOf (c :: rest) then some 0
    else (findSubAux sub rest).map (· + 1)

/-- Model of `str::contains(&str)`. -/
def strContainsSub (s sub : String) : Bool := (findSubAux sub.data s.data).isSome

/-- Fuel-driven worker for `replaceAll` (left-to-right, non-overlapping). -/
def replFuel : Nat → List Char → List Char → List Char → List Char
  | 0, s, _, _ => s
  | f + 1, s, pat, rep =>
    match s with
    | [] => []
    | c :: rest =>
      if !pat.isEmpty && pat.isPrefixOf (c :: rest) then
        rep ++ replFuel f ((c :: rest).drop pat.length) pat rep
      else
        c :: replFuel f rest pat rep

/-- Model of `str::replace` for a non-empty pattern. -/
def replaceAll (s pat rep : String) : String :=
  ⟨replFuel s.data.length s.data pat.data rep.data⟩

/-- Model of `str::split_once(char)`. -/
def splitOnceChar (c : Char) : List Char → Option (List Char × List Char)
  | [] => none
  | x :: rest =>
    if x == c then some ([], rest)
    else (splitOnceChar c rest).map (fun p => (x :: p.1, p.2))

/-- Model of `str::splitn(n, char::is_whitespace)`: split at each whitespace
character, yielding at most `n` pieces, the last one unsplit. -/
def splitnWsAux : Nat → List Char → List (List Char)
  | 0, _ => []
  | 1, l => [l]
  | n + 2, l =>
    let pre := l.takeWhile (fun c => !c.isWhitespace)
    match l.dropWhile (fun c => !c.isWhitespace) with
    | [] => [pre]
    | _ :: tail => pre :: splitnWsAux (n + 1) tail

def rustSplitn (n : Nat) (s : String) : List String :=
  (splitnWsAux n s.data).map (fun l => (⟨l⟩ : String))

/-- Fuel-driven worker for `split_whitespace` (non-empty tokens only). -/
def splitWsAllAux : Nat → List Char → List (List Char)
  | 0, _ => []
  | f + 1, l =>
    match l.dropWhile Char.isWhitespace with
    | [] => []
    | c :: rest =>
      let tok := (c :: rest).takeWhile (fun ch => !ch.isWhitespace)
      tok :: splitWsAllAux f ((c :: rest).drop tok.length)

/-- Model of `str::split_whitespace`. -/
def rustSplitWs (s : String) : List String :=
  (splitWsAllAux (s.data.length + 1) s.data).map (fun l => (⟨l⟩ : String))

/-- Split at every occurrence of character `c`, keeping empty pieces. -/
def splitCharAll (c : Char) : List Char → List (List Char)
  | [] => [[]]
  | x :: rest =>
    if x == c then [] :: splitCharAll c rest
    else
      match splitCharAll c rest with
      | [] => [[x]]
      | p :: ps => (x :: p) :: ps

def dropTrailingCR (s : String) : String :=
  if strEndsWith s "\r" then ⟨s.data.dropLast⟩ else s

/-- Model of `str::lines`: split on `'\n'`, drop a final empty piece, strip
one trailing `'\r'` per line. -/
def rustLines (s : String) : List String :=
  let parts := (splitCharAll '\n' s.data).map (fun l => (⟨l⟩ : String))
  let parts := match parts.getLast? with
    | some "" => parts.dropLast
    | _ => parts
  parts.map dropTrailingCR

/-- Model of `str::parse::<u16>()`: optional leading `'+'`, one or more ASCII
digits, value at most 65535. -/
def parseU16 (s : String) : Option Nat :=
  let core := fun (l : List Char) =>
    if !l.isEmpty && l.all Char.isDigit then
      let v := l.foldl (fun a c => a * 10 + (c.toNat - 48)) 0
      if v ≤ 65535 then some v else none
    else none
  match s.data with
  | '+' :: rest => core rest
  | l => core l

/-- Fuel-driven worker for splitting on a (non-empty) substring separator. -/
def splitSubFuel : Nat → List Char → List Char → List (List Char)
  | 0, _, l => [l]
  | f + 1, sep, l =>
    match findSubAux sep l with
    | none => [l]
    | some i => l.take i :: splitSubFuel f sep (l.drop (i + sep.length))

/-- Model of `str::split(&str)` for a non-empty separator. -/
def strSplitSub (s sep : String) : List String :=
  (splitSubFuel (s.data.length + 1) sep.data s.data).map (fun l => (⟨l⟩ : String))

/-! ## Oracles for external libraries -/

/-- Capture groups of a successful regex match: `get i` models
`Captures::get(i)` (group 0 is the whole match). -/
structure Caps where
  groups : List (Option String)
deriving DecidableEq, Repr

def Caps.get (cs : Caps) (i : Nat) : Option String := cs.groups.getD i none

/-- A regex engine: `rx pat = none` models `Regex::new(pat)` failing
(malformed pattern); `rx pat = some m` models a compiled regex whose
`m subject` is `Some captures` exactly when the regex matches. -/
abbrev RegexEngine := String → Option (String → Option Caps)

/-- Filesystem oracle for the `-f`/`-d`/`-s`/`-l`/`-F` condition tests and
for `handle_request`'s `is_dir`/`exists` queries. -/
structure FsOracle where
  isFile : String → Bool
  isDir : String → Bool
  sizePos : String → Bool
  isSymlink : String → Bool
  pathExists : String → Bool

/-! ## Data model (src/apache.rs) -/

/-- `RewriteCond` from src/apache.rs. -/
structure RewriteCond where
  test_string : String
  pattern : String
  negate : Bool
  nocase : Bool
  or_next : Bool
deriving DecidableEq, Repr

/-- `RewriteRule` from src/apache.rs. -/
structure RewriteRule where
  pattern : String
  substitution : String
  conditions : List RewriteCond
  last : Bool
  redirect : Option Nat
  nocase : Bool
  qsappend : Bool
  passthrough : Bool
  skip : Bool
deriving DecidableEq, Repr

/-- `RedirectRule` from src/apache.rs (`from` and `to` are Lean keywords,
hence `from_`/`to_`). -/
structure RedirectRule where
  status : Nat
  from_ : String
  to_ : Option String
  is_regex : Bool
deriving DecidableEq, Repr

/-- `HtaccessConfig` from src/apache.rs. -/
structure HtaccessConfig where
  rewrite_engine : Bool
  rewrite_base : String
  rewrite_rules : List RewriteRule
  redirects : List RedirectRule
deriving DecidableEq, Repr

/-- `RewriteContext` from src/apache.rs (paths as strings, matching the
`to_string_lossy` uses in the source). -/
structure RewriteContext where
  request_uri : String
  request_filename : String
  query_string : String
  http_host : String
  request_method : String
  https : Bool
  document_root : String
deriving DecidableEq, Repr

/-- `RewriteResult` from src/apache.rs. -/
inductive RewriteResult where
  | internalRewrite (path : String)
  | redirect (url : String) (status : Nat)
deriving DecidableEq, Repr

/-! ## Rewrite engine (src/apache.rs, impl HtaccessConfig) -/

/-- `HtaccessConfig::expand_variables` (src/apache.rs:198-211). -/
def expand_variables (s : String) (ctx : RewriteContext) (currentUri : String) : String :=
  let r := replaceAll s "%{REQUEST_URI}" currentUri
  let r := replaceAll r "%{REQUEST_FILENAME}" ctx.request_filename
  let r := replaceAll r "%{QUERY_STRING}" ctx.query_string
  let r := replaceAll r "%{HTTP_HOST}" ctx.http_host
  let r := replaceAll r "%{REQUEST_METHOD}" ctx.request_method
  let r := replaceAll r "%{DOCUMENT_ROOT}" ctx.document_root
  replaceAll r "%{HTTPS}" (if ctx.https then "on" else "off")

/-- `HtaccessConfig::test_condition` (src/apache.rs:213-234): file tests go
to the filesystem oracle; otherwise regex match, with a failed compile
giving `false` (`unwrap_or(false)`). -/
def test_condition (rx : RegexEngine) (fs : FsOracle)
    (testValue pattern : String) (nocase : Bool) : Bool :=
  if pattern == "-f" then fs.isFile testValue
  else if pattern == "-d" then fs.isDir testValue
  else if pattern == "-s" then fs.sizePos testValue
  else if pattern == "-l" then fs.isSymlink testValue
  else if pattern == "-F" then fs.pathExists testValue
  else
    let pat := if nocase then "(?i)" ++ pattern else pattern
    match rx pat with
    | some m => (m testValue).isSome
    | none => false

/-- One iteration of the condition loop in
`HtaccessConfig::evaluate_conditions` (src/apache.rs:181-193); the state is
`(result, or_chain)`. -/
def condStep (rx : RegexEngine) (fs : FsOracle) (ctx : RewriteContext)
    (currentUri : String) (st : Bool × Bool) (cond : RewriteCond) : Bool × Bool :=
  let testValue := expand_variables cond.test_string ctx currentUri
  let matched := test_condition rx fs testValue cond.pattern cond.nocase
  let matched := if cond.negate then !matched else matched
  ((if st.2 then st.1 || matched else st.1 && matched), cond.or_next)

/-- `HtaccessConfig::evaluate_conditions` (src/apache.rs:173-196). -/
def evaluate_conditions (rx : RegexEngine) (fs : FsOracle)
    (conds : List RewriteCond) (ctx : RewriteContext) (currentUri : String) : Bool :=
  if conds.isEmpty then true
  else (conds.foldl (condStep rx fs ctx currentUri) (true, false)).1

/-- The backreference substitution of `apply_rewrites`
(src/apache.rs:120-125): replace `$0`..`$9` by the corresponding capture. -/
def substitute_backrefs (subst : String) (caps : Caps) : String :=
  (List.range 10).foldl
    (fun acc i =>
      match caps.get i with
      | some m => replaceAll acc ("$" ++ toString i) m
      | none => acc)
    subst

/-- The effective pattern of a rule: `(?i)` prepended under `NC`
(src/apache.rs:99-103). -/
def eff_pattern (rule : RewriteRule) : String :=
  if rule.nocase then "(?i)" ++ rule.pattern else rule.pattern

/-- Base re-prefixing and query-string appending applied to a non-absolute
substitution result (src/apache.rs:136-148). -/
def finish_uri (cfg : HtaccessConfig) (ctx : RewriteContext)
    (rule : RewriteRule) (u : String) : String :=
  let u2 := if strStartsWith u "/" then u else cfg.rewrite_base ++ u
  if rule.qsappend && !(ctx.query_string == "") then
    if strContainsChar u2 '?' then u2 ++ "&" ++ ctx.query_string
    else u2 ++ "?" ++ ctx.query_string
  else u2

/-- The rule loop of `HtaccessConfig::apply_rewrites` (src/apache.rs:92-164).
`matchPath` is the base-stripped subject computed once before the loop; the
loop state is the current URI.  `Sum.inl cur` means the loop finished (or
hit a `last` break) with current URI `cur`; `Sum.inr r` is an early return
with an external redirect. -/
def apply_loop (rx : RegexEngine) (fs : FsOracle) (cfg : HtaccessConfig)
    (ctx : RewriteContext) (matchPath : String) :
    List RewriteRule → String → String ⊕ RewriteResult
  | [], currentUri => Sum.inl currentUri
  | rule :: rest, currentUri =>
    if !(evaluate_conditions rx fs rule.conditions ctx currentUri) then
      apply_loop rx fs cfg ctx matchPath rest currentUri
    else
      match rx (eff_pattern rule) with
      | none => apply_loop rx fs cfg ctx matchPath rest currentUri
      | some re =>
        match re matchPath with
        | none => apply_loop rx fs cfg ctx matchPath rest currentUri
        | some caps =>
          if rule.substitution == "-" then
            if rule.last then Sum.inl currentUri
            else apply_loop rx fs cfg ctx matchPath rest currentUri
          else
            let newUri := substitute_backrefs rule.substitution caps
            if strStartsWith newUri "http://" || strStartsWith newUri "https://" then
              Sum.inr (RewriteResult.redirect newUri (rule.redirect.getD 302))
            else
              let u := finish_uri cfg ctx rule newUri
              match rule.redirect with
              | some st => Sum.inr (RewriteResult.redirect u st)
              | none =>
                if rule.last then Sum.inl u
                else apply_loop rx fs cfg ctx matchPath rest u

/-- The base-stripping of `apply_rewrites` (src/apache.rs:83-90), applied to
the original request URI before the loop. -/
def strip_base (cfg : HtaccessConfig) (uri : String) : String :=
  if !(cfg.rewrite_base == "") && !(cfg.rewrite_base == "/") then
    if cfg.rewrite_base.data.isPrefixOf uri.data then
      trimLeadingSlashes ⟨uri.data.drop cfg.rewrite_base.data.length⟩
    else trimLeadingSlashes uri
  else trimLeadingSlashes uri

/-- `HtaccessConfig::apply_rewrites` (src/apache.rs:75-171). -/
def apply_rewrites (rx : RegexEngine) (fs : FsOracle) (cfg : HtaccessConfig)
    (ctx : RewriteContext) : Option RewriteResult :=
  if !cfg.rewrite_engine then none
  else
    let matchPath := strip_base cfg ctx.request_uri
    match apply_loop rx fs cfg ctx matchPath cfg.rewrite_rules ctx.request_uri with
    | Sum.inr r => some r
    | Sum.inl cur =>
      if !(cur == ctx.request_uri) then some (RewriteResult.internalRewrite cur)
      else none

/-- `RedirectRule::matches` (src/apache.rs:417-450). -/
def RedirectRule.matches (rx : RegexEngine) (r : RedirectRule) (path : String) :
    Option (Nat × Option String) :=
  if r.is_regex then
    match rx r.from_ with
    | some re =>
      match re path with
      | some caps =>
        match r.to_ with
        | some t =>
          let target := (List.range 9).foldl
            (fun acc j =>
              match caps.get (j + 1) with
              | some m => replaceAll acc ("$" ++ toString (j + 1)) m
              | none => acc)
            t
          some (r.status, some target)
        | none => some (r.status, none)
      | none => none
    | none => none
  else
    if path == r.from_ || strStartsWith path (r.from_ ++ "/") then
      match r.to_ with
      | some t => some (r.status, some (t ++ strDrop path r.from_.data.length))
      | none => some (r.status, none)
    else none

/-! ## .htaccess parsing (src/apache.rs:251-413, 599-639) -/

/-- `parse_rewrite_cond` (src/apache.rs:327-360). -/
def parse_rewrite_cond (line : String) : Option RewriteCond :=
  let parts := (rustSplitn 4 line).filter (fun s => !(s == ""))
  if parts.length < 3 then none
  else
    let test_string := parts.getD 1 ""
    let pat0 := parts.getD 2 ""
    let negate := strStartsWith pat0 "!"
    let pattern := if negate then strDrop pat0 1 else pat0
    let flagsPair :=
      if parts.length ≥ 4 then
        let flags := upperStr (parts.getD 3 "")
        (strContainsSub flags "NC", strContainsSub flags "OR")
      else (false, false)
    some { test_string := test_string, pattern := pattern, negate := negate,
           nocase := flagsPair.1, or_next := flagsPair.2 }

/-- `parse_rewrite_rule` (src/apache.rs:362-413).  The parsed rule has an
empty condition list; conditions are attached by the content parser. -/
def parse_rewrite_rule (line : String) : Option RewriteRule :=
  let parts := (rustSplitn 4 line).filter (fun s => !(s == ""))
  if parts.length < 3 then none
  else
    let pattern := parts.getD 1 ""
    let substitution := parts.getD 2 ""
    let skip := substitution == "-"
    if parts.length ≥ 4 then
      let flags := upperStr (parts.getD 3 "")
      let last := strContainsChar flags 'L' || strContainsSub flags "[L]"
        || strContainsSub flags "L," || strContainsSub flags ",L"
      let redirect :=
        if strContainsChar flags 'R' then
          let viaEq :=
            match findSubAux ("R=").data flags.data with
            | some i => parseU16 ⟨(flags.data.drop (i + 2)).takeWhile Char.isDigit⟩
            | none => none
          some (viaEq.getD 302)
        else none
      some { pattern := pattern, substitution := substitution, conditions := [],
             last := last, redirect := redirect,
             nocase := strContainsSub flags "NC", qsappend := strContainsSub flags "QSA",
             passthrough := strContainsSub flags "PT", skip := skip }
    else
      some { pattern := pattern, substitution := substitution, conditions := [],
             last := false, redirect := none, nocase := false, qsappend := false,
             passthrough := false, skip := skip }

/-- `parse_redirect_directive` (src/apache.rs:600-639). -/
def parse_redirect_directive (line : String) (is_regex : Bool) : Option RedirectRule :=
  let parts := rustSplitWs line
  if parts.length < 3 then none
  else
    let p1 := parts.getD 1 ""
    let statusIdx :=
      if p1 == "permanent" || p1 == "301" then (301, 2)
      else if p1 == "temp" || p1 == "302" then (302, 2)
      else if p1 == "seeother" || p1 == "303" then (303, 2)
      else if p1 == "gone" || p1 == "410" then (410, 2)
      else match parseU16 p1 with
        | some v => (v, 2)
        | none => (302, 1)
    let status := statusIdx.1
    let fromIdx := statusIdx.2
    if parts.length ≤ fromIdx then none
    else
      let from_ := parts.getD fromIdx ""
      if status == 410 then
        some { status := status, from_ := from_, to_ := none, is_regex := is_regex }
      else if parts.length > fromIdx + 1 then
        some { status := status, from_ := from_,
               to_ := some (parts.getD (fromIdx + 1) ""), is_regex := is_regex }
      else none

/-- State of the line loop in `parse_htaccess_content`: the config built so
far and the pending (not yet attached) conditions. -/
structure ParseState where
  cfg : HtaccessConfig
  pending : List RewriteCond
deriving DecidableEq, Repr

/-- One iteration of the line loop in `parse_htaccess_content`
(src/apache.rs:267-322). -/
def process_line (st : ParseState) (raw : String) : ParseState :=
  let line := strTrim raw
  if line == "" || strStartsWith line "#" then st
  else if strStartsWith line "<IfModule" || strStartsWith line "</IfModule" then st
  else if eqIgnoreAsciiCase line "RewriteEngine On" then
    { st with cfg := { st.cfg with rewrite_engine := true } }
  else if eqIgnoreAsciiCase line "RewriteEngine Off" then
    { st with cfg := { st.cfg with rewrite_engine := false } }
  else if strStartsWith line "RewriteBase" then
    let parts := rustSplitWs line
    if parts.length ≥ 2 then
      { st with cfg := { st.cfg with rewrite_base := parts.getD 1 "" } }
    else st
  else if strStartsWith line "RewriteCond" then
    match parse_rewrite_cond line with
    | some c => { st with pending := st.pending ++ [c] }
    | none => st
  else if strStartsWith line "RewriteRule" then
    match parse_rewrite_rule line with
    | some r =>
      { cfg := { st.cfg with
          rewrite_rules := st.cfg.rewrite_rules ++ [{ r with conditions := st.pending }] },
        pending := [] }
    | none => st
  else if strStartsWith line "Redirect" then
    if strStartsWith line "RedirectMatch" then
      match parse_redirect_directive line true with
      | some r => { st with cfg := { st.cfg with redirects := st.cfg.redirects ++ [r] } }
      | none => st
    else if strStartsWith line "RedirectPermanent" then
      let parts := (rustSplitn 3 line).filter (fun s => !(s == ""))
      if parts.length ≥ 3 then
        { st with cfg := { st.cfg with redirects := st.cfg.redirects ++
            [{ status := 301, from_ := parts.getD 1 "", to_ := some (parts.getD 2 ""),
               is_regex := false }] } }
      else st
    else if strStartsWith line "Redirect " then
      match parse_redirect_directive line false with
      | some r => { st with cfg := { st.cfg with redirects := st.cfg.redirects ++ [r] } }
      | none => st
    else st
  else st

/-- `parse_htaccess_content` (src/apache.rs:257-325). -/
def parse_htaccess_content (content : String) : HtaccessConfig :=
  ((rustLines content).foldl process_line
    { cfg := { rewrite_engine := false, rewrite_base := "/",
               rewrite_rules := [], redirects := [] },
      pending := [] }).cfg

/-- How a line participates in rule/condition pairing: a successfully
parsed `RewriteCond`, a successfully parsed `RewriteRule`, or anything
else.  The branch conditions are exactly those of `process_line`. -/
inductive LineKind where
  | cond (c : RewriteCond)
  | rule (r : RewriteRule)
  | other
deriving DecidableEq, Repr

def classify_line (raw : String) : LineKind :=
  let line := strTrim raw
  if line == "" || strStartsWith line "#" then LineKind.other
  else if strStartsWith line "<IfModule" || strStartsWith line "</IfModule" then LineKind.other
  else if eqIgnoreAsciiCase line "RewriteEngine On" then LineKind.other
  else if eqIgnoreAsciiCase line "RewriteEngine Off" then LineKind.other
  else if strStartsWith line "RewriteBase" then LineKind.other
  else if strStartsWith line "RewriteCond" then
    match parse_rewrite_cond line with
    | some c => LineKind.cond c
    | none => LineKind.other
  else if strStartsWith line "RewriteRule" then
    match parse_rewrite_rule line with
    | some r => LineKind.rule r
    | none => LineKind.other
  else LineKind.other

/-- Reference pairing of conditions and rules, written from the (amended)
specification wording: each successfully parsed `RewriteRule` receives
exactly the successfully parsed `RewriteCondition` entries declared above
it since the last successfully parsed `RewriteRule` line, and consumes
them; every other line leaves the pairing untouched. -/
def spec_rules : List RewriteCond → List String → List RewriteRule
  | _, [] => []
  | pending, l :: ls =>
    match classify_line l with
    | LineKind.cond c => spec_rules (pending ++ [c]) ls
    | LineKind.rule r => { r with conditions := pending } :: spec_rules [] ls
    | LineKind.other => spec_rules pending ls

/-! ## Virtual hosts and startup port collection (src/main.rs:210-263) -/

/-- `VirtualHost` from src/apache.rs (paths as strings). -/
structure VirtualHost where
  port : Nat
  server_name : Option String
  server_aliases : List String
  document_root : Option String
  ssl_cert_file : Option String
  ssl_key_file : Option String
  ssl_chain_file : Option String
  redirects : List RedirectRule
deriving DecidableEq, Repr

/-- The two port lists built by the startup loop in `main`
(src/main.rs:216-217). -/
structure PortState where
  http : List Nat
  https : List Nat
deriving DecidableEq, Repr

/-- One iteration of the port-collection loop in `main`
(src/main.rs:220-249): an SSL-capable host moves its port to the HTTPS
list (removing it from the HTTP list); any other host adds its port to the
HTTP list unless it is already listed anywhere. -/
def collect_step (s : PortState) (v : VirtualHost) : PortState :=
  -- `let is_ssl = vhost.ssl_cert_file.is_some() && vhost.ssl_key_file.is_some()`
  if v.ssl_cert_file.isSome && v.ssl_key_file.isSome then
    if s.https.contains v.port then s
    else { https := s.https ++ [v.port], http := s.http.filter (fun p => p != v.port) }
  else
    if !(s.http.contains v.port) && !(s.https.contains v.port) then
      { s with http := s.http ++ [v.port] }
    else s

/-- The whole port-collection loop, starting from
`http_ports = vec![config.server.port]`, `https_ports = vec![]`. -/
def collect_ports (defaultPort : Nat) (vhosts : List VirtualHost) : PortState :=
  vhosts.foldl collect_step { http := [defaultPort], https := [] }

/-! ## Request handling (src/main.rs:349-406) -/

/-- The `Host` header as seen by `handle_request`: absent, present but not
valid as a string (`to_str` fails), or a usable string. -/
inductive HostHeader where
  | absent
  | invalid
  | valid (h : String)

/-- The routing-relevant part of `AppState` (src/main.rs:154-158): the
hostname map and the default virtual host. -/
structure AppState where
  vhosts : String → Option VirtualHost
  default_vhost : Option VirtualHost

/-- Outcome of `handle_request`'s routing logic: the first three are
immediate responses (403 "Forbidden", 403 "Directory listing denied",
404 "Not Found"); `phpScript p` delegates to the script gateway for `p`;
`staticFile p` streams the file `p`. -/
inductive Decision where
  | forbidden
  | dirDenied
  | notFound
  | phpScript (path : String)
  | staticFile (path : String)
deriving DecidableEq, Repr

/-- Model of `PathBuf::join` with a relative right operand. -/
def joinPath (a b : String) : String :=
  if strEndsWith a "/" then a ++ b else a ++ "/" ++ b

/-- Document-root resolution of `handle_request` (src/main.rs:359-378):
look up the host name (port suffix stripped); a found virtual host's root
wins, else the default virtual host's root, else `"public"`; a found host
without a root also leaves `"public"`. -/
def resolve_doc_root (st : AppState) (host : HostHeader) : String :=
  match host with
  | HostHeader.valid h =>
    let hostName : String := ⟨h.data.takeWhile (fun c => c != ':')⟩
    match st.vhosts hostName with
    | some v =>
      match v.document_root with
      | some r => r
      | none => "public"
    | none =>
      match st.default_vhost with
      | some v =>
        match v.document_root with
        | some r => r
        | none => "public"
      | none => "public"
  | HostHeader.invalid => "public"
  | HostHeader.absent =>
    match st.default_vhost with
    | some v =>
      match v.document_root with
      | some r => r
      | none => "public"
    | none => "public"

/-- The path `doc_root.join(clean_path)` formed in src/main.rs:380. -/
def resolved_path (st : AppState) (host : HostHeader) (uriPath : String) : String :=
  joinPath (resolve_doc_root st host) (trimLeadingSlashes uriPath)

/-- Model of `Path::extension`: the part of the last component after its
last dot, unless that dot is the component's first character. -/
def pathExtension (p : String) : Option String :=
  let revName := p.data.reverse.takeWhile (fun c => c != '/')
  let revExt := revName.takeWhile (fun c => c != '.')
  if revExt.length + 1 < revName.length then some ⟨revExt.reverse⟩ else none

/-- Directory-index resolution of `handle_request` (src/main.rs:382-391):
inside a directory serve `index.php`, else `index.html`, else deny
(`none` = 403 "Directory listing denied"). -/
def resolve_index (fs : FsOracle) (p : String) : Option String :=
  if fs.isDir p then
    if fs.pathExists (joinPath p "index.php") then some (joinPath p "index.php")
    else if fs.pathExists (joinPath p "index.html") then some (joinPath p "index.html")
    else none
  else some p

/-- The routing logic of `handle_request` (src/main.rs:349-406): traversal
check on the slash-trimmed path, document-root resolution, directory-index
resolution, existence check, and dispatch on the `php` extension. -/
def handle_request (fs : FsOracle) (st : AppState) (host : HostHeader)
    (uriPath : String) : Decision :=
  if hasDD (trimLeadingSlashes uriPath).data then Decision.forbidden
  else
    match resolve_index fs (resolved_path st host uriPath) with
    | none => Decision.dirDenied
    | some path =>
      if !(fs.pathExists path) then Decision.notFound
      else
        match pathExtension path with
        | some e => if e == "php" then Decision.phpScript path else Decision.staticFile path
        | none => Decision.staticFile path

/-! ## Backend response parsing (src/main.rs:591-630) -/

/-- The parsed response: status code, header map as an ordered list of
(lower-cased name, value) pairs, body bytes. -/
structure PhpResponse where
  status : Nat
  headers : List (String × String)
  body : List Nat
deriving DecidableEq, Repr

/-- Position of the first `\r\n\r\n` window in the byte stream
(`stdout.windows(4).position(...)`, src/main.rs:595). -/
def findSep : List Nat → Option Nat
  | a :: b :: c :: d :: rest =>
    if a == 13 && b == 10 && c == 13 && d == 10 then some 0
    else (findSep (b :: c :: d :: rest)).map (· + 1)
  | _ => none

def isContByte (b : Nat) : Bool := 128 ≤ b && b ≤ 191

/-- Strict UTF-8 decoding (model of `std::str::from_utf8`), fuel-driven. -/
def utf8DecodeFuel : Nat → List Nat → Option (List Char)
  | _, [] => some []
  | 0, _ :: _ => none
  | f + 1, b :: rest =>
    if b < 128 then (utf8DecodeFuel f rest).map (fun cs => Char.ofNat b :: cs)
    else if 194 ≤ b && b ≤ 223 then
      match rest with
      | c1 :: r =>
        if isContByte c1 then
          (utf8DecodeFuel f r).map (fun cs => Char.ofNat ((b - 192) * 64 + (c1 - 128)) :: cs)
        else none
      | [] => none
    else if b == 224 then
      match rest with
      | c1 :: c2 :: r =>
        if (160 ≤ c1 && c1 ≤ 191) && isContByte c2 then
          (utf8DecodeFuel f r).map
            (fun cs => Char.ofNat ((b - 224) * 4096 + (c1 - 128) * 64 + (c2 - 128)) :: cs)
        else none
      | _ => none
    else if (225 ≤ b && b ≤ 236) || b == 238 || b == 239 then
      match rest with
      | c1 :: c2 :: r =>
        if isContByte c1 && isContByte c2 then
          (utf8DecodeFuel f r).map
            (fun cs => Char.ofNat ((b - 224) * 4096 + (c1 - 128) * 64 + (c2 - 128)) :: cs)
        else none
      | _ => none
    else if b == 237 then
      match rest with
      | c1 :: c2 :: r =>
        if (128 ≤ c1 && c1 ≤ 159) && isContByte c2 then
          (utf8DecodeFuel f r).map
            (fun cs => Char.ofNat ((b - 224) * 4096 + (c1 - 128) * 64 + (c2 - 128)) :: cs)
        else none
      | _ => none
    else if b == 240 then
      match rest with
      | c1 :: c2 :: c3 :: r =>
        if (144 ≤ c1 && c1 ≤ 191) && isContByte c2 && isContByte c3 then
          (utf8DecodeFuel f r).map
            (fun cs => Char.ofNat ((b - 240) * 262144 + (c1 - 128) * 4096
              + (c2 - 128) * 64 + (c3 - 128)) :: cs)
        else none
      | _ => none
    else if 241 ≤ b && b ≤ 243 then
      match rest with
      | c1 :: c2 :: c3 :: r =>
        if isContByte c1 && isContByte c2 && isContByte c3 then
          (utf8DecodeFuel f r).map
            (fun cs => Char.ofNat ((b - 240) * 262144 + (c1 - 128) * 4096
              + (c2 - 128) * 64 + (c3 - 128)) :: cs)
        else none
      | _ => none
    else if b == 244 then
      match rest with
      | c1 :: c2 :: c3 :: r =>
        if (128 ≤ c1 && c1 ≤ 143) && isContByte c2 && isContByte c3 then
          (utf8DecodeFuel f r).map
            (fun cs => Char.ofNat ((b - 240) * 262144 + (c1 - 128) * 4096
              + (c2 - 128) * 64 + (c3 - 128)) :: cs)
        else none
      | _ => none
    else none

def utf8Decode (l : List Nat) : Option (List Char) := utf8DecodeFuel l.length l

/-- Valid characters of a (lower-cased) HTTP header name as accepted by
`HeaderName::from_bytes`: digits, lower-case letters, and
`! # $ % & ' * + - . ^ _ \x60 | ~` (code points given numerically). -/
def validNameCharLower (c : Char) : Bool :=
  (97 ≤ c.toNat && c.toNat ≤ 122) || (48 ≤ c.toNat && c.toNat ≤ 57) ||
  c.toNat == 33 || c.toNat == 35 || c.toNat == 36 || c.toNat == 37 ||
  c.toNat == 38 || c.toNat == 39 || c.toNat == 42 || c.toNat == 43 ||
  c.toNat == 45 || c.toNat == 46 || c.toNat == 94 || c.toNat == 95 ||
  c.toNat == 96 || c.toNat == 124 || c.toNat == 126

/-- Model of `HeaderName::from_bytes`: non-empty, every character valid
after ASCII lowering; the stored name is lower-cased. -/
def headerNameNorm (k : String) : Option String :=
  let low := lowerStr k
  if !(low == "") && low.data.all validNameCharLower then some low else none

/-- Model of `HeaderValue::from_str`: every character is horizontal tab or
has code point at least 32 and different from 127. -/
def validValueChar (c : Char) : Bool :=
  c.toNat == 9 || (32 ≤ c.toNat && !(c.toNat == 127))

def validHeaderValue (v : String) : Bool := v.data.all validValueChar

/-- Model of `HeaderMap::insert`: replace the value of an existing key in
place, else append. -/
def insertHeader (k v : String) (hs : List (String × String)) : List (String × String) :=
  if hs.any (fun p => p.1 == k) then
    hs.map (fun p => if p.1 == k then (p.1, v) else p)
  else hs ++ [(k, v)]

/-- Model of `value.split_whitespace().next()`. -/
def firstWsToken (v : String) : Option String :=
  match (v.data.dropWhile Char.isWhitespace).takeWhile (fun c => !c.isWhitespace) with
  | [] => none
  | t => some ⟨t⟩

/-- One header line of `parse_php_response` (src/main.rs:602-621).  The
state is `(status_code, headers)`.  A `Status` header (case-insensitive)
sets the status from its first token when it parses as a `u16` accepted by
`StatusCode::from_u16` (100 ≤ code < 1000); other well-formed lines are
inserted; malformed lines are skipped. -/
def process_header_line (acc : Nat × List (String × String)) (line : String) :
    Nat × List (String × String) :=
  match splitOnceChar ':' line.data with
  | none => acc
  | some kv =>
    let k := strTrim ⟨kv.1⟩
    let v := strTrim ⟨kv.2⟩
    if eqIgnoreAsciiCase k "Status" then
      match firstWsToken v with
      | some tok =>
        match parseU16 tok with
        | some code => if 100 ≤ code && code < 1000 then (code, acc.2) else acc
        | none => acc
      | none => acc
    else
      match headerNameNorm k with
      | some hn => if validHeaderValue v then (acc.1, insertHeader hn v acc.2) else acc
      | none => acc

/-- The header block loop of `parse_php_response`. -/
def process_headers (s : String) : Nat × List (String × String) :=
  (strSplitSub s "\r\n").foldl process_header_line (200, [])

/-- `parse_php_response` (src/main.rs:591-630). -/
def parse_php_response (stdout : List Nat) : PhpResponse :=
  match findSep stdout with
  | some idx =>
    let bodyPart := stdout.drop (idx + 4)
    match utf8Decode (stdout.take idx) with
    | some cs =>
      let sh := process_headers ⟨cs⟩
      { status := sh.1, headers := sh.2, body := bodyPart }
    | none => { status := 200, headers := [], body := bodyPart }
  | none => { status := 200, headers := [], body := stdout }

/-- ASCII bytes of a string (used to build concrete byte inputs). -/
def asciiBytes (s : String) : List Nat := s.data.map Char.toNat

/-! ## Specification-side definitions used by individual claims -/

/-- Left-to-right combination of already-negated condition values, written
from the specification wording: the accumulated value is OR-combined with
the next condition's value when the previous condition carried `or_next`,
and AND-combined otherwise. -/
def chain_from (val : RewriteCond → Bool) (acc useOr : Bool) :
    List RewriteCond → Bool
  | [] => acc
  | c :: rest =>
    chain_from val (if useOr then acc || val c else acc && val c) c.or_next rest

/-- Condition-list evaluation written from the specification wording: an
empty list is true; otherwise start from the first condition's value and
chain left-to-right, each condition's own `or_next` flag choosing how the
*next* condition is combined. -/
def eval_conds_spec (val : RewriteCond → Bool) : List RewriteCond → Bool
  | [] => true
  | c :: rest => chain_from val (val c) c.or_next rest

/-- The truth value of a single condition: expand the variables, run the
test, and invert when negated (the per-condition part of
`evaluate_conditions`). -/
def cond_truth (rx : RegexEngine) (fs : FsOracle) (ctx : RewriteContext)
    (currentUri : String) (c : RewriteCond) : Bool :=
  let testValue := expand_variables c.test_string ctx currentUri
  let matched := test_condition rx fs testValue c.pattern c.nocase
  if c.negate then !matched else matched

/-- The disjointness invariant of the port-collection loop: no HTTPS port
is also a plaintext port. -/
def PortInv (s : PortState) : Prop := ∀ p, p ∈ s.https → p ∉ s.http

/-- Whether a header line carries a (case-insensitive) `Status` key. -/
def lineIsStatus (line : String) : Bool :=
  match splitOnceChar ':' line.data with
  | some kv => eqIgnoreAsciiCase (strTrim ⟨kv.1⟩) "Status"
  | none => false

/-- The normalized name of a well-formed non-`Status` header line, `none`
for malformed or `Status` lines. -/
def wellFormedHeaderName (line : String) : Option String :=
  match splitOnceChar ':' line.data with
  | none => none
  | some kv =>
    if lineIsStatus line then none
    else
      match headerNameNorm (strTrim ⟨kv.1⟩) with
      | some hn => if validHeaderValue (strTrim ⟨kv.2⟩) then some hn else none
      | none => none

/-! ## Concrete fixtures for counterexamples and witnesses -/

/-- Filesystem oracle on which every test is false. -/
def fsNone : FsOracle :=
  ⟨fun _ => false, fun _ => false, fun _ => false, fun _ => false, fun _ => false⟩

/-- App state with no virtual hosts at all. -/
def stEmpty : AppState := ⟨fun _ => none, none⟩

/-- A regex engine that fails to compile every pattern. -/
def rxFail : RegexEngine := fun _ => none

def capsA : Caps := ⟨[some "a"]⟩

def capsB : Caps := ⟨[some "b"]⟩

/-- Matcher for the regex `^a$`: matches exactly the subject `"a"`. -/
def funA : String → Option Caps := fun s => if s == "a" then some capsA else none

/-- Matcher for the regex `^b$`: matches exactly the subject `"b"`. -/
def funB : String → Option Caps := fun s => if s == "b" then some capsB else none

/-- Concrete regex engine implementing the two anchored literal patterns
`^a$` and `^b$` with the behavior the `regex` crate has on them. -/
def rxC1 : RegexEngine := fun pat =>
  if pat == "^a$" then some funA
  else if pat == "^b$" then some funB
  else none

def ruleA : RewriteRule :=
  { pattern := "^a$", substitution := "/b", conditions := [], last := false,
    redirect := none, nocase := false, qsappend := false, passthrough := false,
    skip := false }

def ruleB : RewriteRule :=
  { pattern := "^b$", substitution := "/c", conditions := [], last := false,
    redirect := none, nocase := false, qsappend := false, passthrough := false,
    skip := false }

def cfgC1 : HtaccessConfig :=
  { rewrite_engine := true, rewrite_base := "/", rewrite_rules := [ruleA, ruleB],
    redirects := [] }

def ctxC1 : RewriteContext :=
  { request_uri := "/a", request_filename := "", query_string := "",
    http_host := "", request_method := "GET", https := false, document_root := "" }

/-- Rule for C6: `^a$ → /b` with `[R=301,QSA]`. -/
def rule6 : RewriteRule :=
  { pattern := "^a$", substitution := "/b", conditions := [], last := false,
    redirect := some 301, nocase := false, qsappend := true, passthrough := false,
    skip := false }

def cfg6 : HtaccessConfig :=
  { rewrite_engine := true, rewrite_base := "/", rewrite_rules := [rule6],
    redirects := [] }

def ctx6 : RewriteContext :=
  { request_uri := "/a", request_filename := "", query_string := "x=1",
    http_host := "", request_method := "GET", https := false, document_root := "" }

/-- Filesystem oracle for the C10 witness: `public/dir` is a directory
containing `index.php`. -/
def fs10 : FsOracle :=
  ⟨fun _ => false, fun p => p == "public/dir", fun _ => false, fun _ => false,
   fun p => p == "public/dir/index.php"⟩

/-- TLS-capable virtual host for the C3 witness. -/
def vC3 : VirtualHost :=
  { port := 8443, server_name := some "secure.example", server_aliases := [],
    document_root := none, ssl_cert_file := some "cert.pem",
    ssl_key_file := some "key.pem", ssl_chain_file := none, redirects := [] }

/-! ## Lemmas and claim theorems -/

theorem mem_collect_step_https {s : PortState} {v : VirtualHost} {p : Nat}
    (h : p ∈ s.https) : p ∈ (collect_step s v).https := by
  unfold collect_step
  split
  · split
    · exact h
    · exact List.mem_append_left _ h
  · split
    · exact h
    · exact h

theorem mem_collect_foldl_https :
    ∀ (vs : List VirtualHost) (s : PortState) {p : Nat},
      p ∈ s.https → p ∈ (vs.foldl collect_step s).https
  | [], _, _, h => h
  | _ :: vs, s, _, h =>
    mem_collect_foldl_https vs (collect_step s _) (mem_collect_step_https h)

theorem collect_step_inv {s : PortState} (v : VirtualHost) (h : PortInv s) :
    PortInv (collect_step s v) := by
  intro p hp hmem
  unfold collect_step at hp hmem
  by_cases hssl : (v.ssl_cert_file.isSome && v.ssl_key_file.isSome) = true
  · rw [if_pos hssl] at hp hmem
    by_cases hcont : s.https.contains v.port = true
    · rw [if_pos hcont] at hp hmem
      exact h p hp hmem
    · rw [if_neg hcont] at hp hmem
      simp only [List.mem_append, List.mem_singleton] at hp
      simp only [List.mem_filter] at hmem
      rcases hp with hp | rfl
      · exact h p hp hmem.1
      · simp at hmem
  · rw [if_neg hssl] at hp hmem
    by_cases hadd : (!(s.http.contains v.port) && !(s.https.contains v.port)) = true
    · rw [if_pos hadd] at hp hmem
      simp only [List.mem_append, List.mem_singleton] at hmem
      rcases hmem with hmem | rfl
      · exact h p hp hmem
      · have hns : ¬ (v.port ∈ s.https) := by
          have h2 := (Bool.and_eq_true _ _).mp hadd |>.2
          simpa [List.elem_iff] using h2
        exact hns hp
    · rw [if_neg hadd] at hp hmem
      exact h p hp hmem

theorem collect_foldl_inv :
    ∀ (vs : List VirtualHost) (s : PortState), PortInv s →
      PortInv (vs.foldl collect_step s)
  | [], _, h => h
  | v :: vs, s, h => collect_foldl_inv vs (collect_step s v) (collect_step_inv v h)

theorem mem_ssl_foldl_https :
    ∀ (vs : List VirtualHost) (s : PortState) (v : VirtualHost), v ∈ vs →
      (v.ssl_cert_file.isSome && v.ssl_key_file.isSome) = true →
      v.port ∈ (vs.foldl collect_step s).https := by
  intro vs
  induction vs with
  | nil => intro s v h; exact absurd h (List.not_mem_nil v)
  | cons w ws ih =>
    intro s v hmem hssl
    rcases List.mem_cons.mp hmem with rfl | hmem'
    · rw [List.foldl_cons]
      refine mem_collect_foldl_https ws _ ?_
      unfold collect_step
      rw [if_pos hssl]
      by_cases hc : s.https.contains v.port = true
      · rw [if_pos hc]
        simpa [List.elem_iff] using hc
      · rw [if_neg hc]
        simp
    · exact ih (collect_step s w) v hmem' hssl

/-- Claim C3: after the startup port-collection loop over any list of
loaded virtual hosts (in any order), a virtual host having both an SSL
certificate file and an SSL key file never has its port in the final
plaintext (HTTP) listener port list. -/
theorem c3_theorem (defaultPort : Nat) (vhosts : List VirtualHost)
    (v : VirtualHost) (hmem : v ∈ vhosts)
    (hc : v.ssl_cert_file.isSome = true) (hk : v.ssl_key_file.isSome = true) :
    v.port ∉ (collect_ports defaultPort vhosts).http := by
  have hssl : (v.ssl_cert_file.isSome && v.ssl_key_file.isSome) = true := by
    rw [hc, hk]; rfl
  have hinv : PortInv (collect_ports defaultPort vhosts) := by
    unfold collect_ports
    exact collect_foldl_inv vhosts _ (fun p hp => by cases hp)
  exact hinv v.port (mem_ssl_foldl_https vhosts _ v hmem hssl)

/-- Witness for C3: a TLS host on port 8443 among the loaded hosts, default
port 3000: 8443 is absent from the final HTTP port list. -/
theorem c3_witness :
    vC3 ∈ [vC3] ∧ vC3.ssl_cert_file.isSome = true ∧ vC3.ssl_key_file.isSome = true ∧
    vC3.port ∉ (collect_ports 3000 [vC3]).http :=
  ⟨List.mem_singleton.mpr rfl, by decide, by decide,
    c3_theorem 3000 [vC3] vC3 (List.mem_singleton.mpr rfl) (by decide) (by decide)⟩

theorem foldl_condStep_chain (rx : RegexEngine) (fs : FsOracle)
    (ctx : RewriteContext) (cur : String) :
    ∀ (conds : List RewriteCond) (a o : Bool),
      (conds.foldl (condStep rx fs ctx cur) (a, o)).1
        = chain_from (cond_truth rx fs ctx cur) a o conds := by
  intro conds
  induction conds with
  | nil => intro a o; rfl
  | cons c cs ih =>
    intro a o
    show (cs.foldl (condStep rx fs ctx cur) (condStep rx fs ctx cur (a, o) c)).1 = _
    have hstep : condStep rx fs ctx cur (a, o) c
        = ((if o then a || cond_truth rx fs ctx cur c
            else a && cond_truth rx fs ctx cur c), c.or_next) := rfl
    rw [hstep, show chain_from (cond_truth rx fs ctx cur) a o (c :: cs)
        = chain_from (cond_truth rx fs ctx cur)
            (if o then a || cond_truth rx fs ctx cur c
             else a && cond_truth rx fs ctx cur c) c.or_next cs from rfl]
    exact ih _ _

/-- Claim C4: `evaluate_conditions` combines conditions left-to-right;
each condition's truth value is negated first when flagged, a condition
whose own `or_next` flag is set is OR-combined with the next condition's
value, otherwise AND-combined, and an empty list evaluates to true — i.e.
the code agrees with `eval_conds_spec`, the direct transcription of the
specification wording. -/
theorem c4_theorem (rx : RegexEngine) (fs : FsOracle) (conds : List RewriteCond)
    (ctx : RewriteContext) (currentUri : String) :
    evaluate_conditions rx fs conds ctx currentUri
      = eval_conds_spec (cond_truth rx fs ctx currentUri) conds := by
  cases conds with
  | nil => rfl
  | cons c cs =>
    unfold evaluate_conditions
    rw [if_neg (by simp)]
    rw [foldl_condStep_chain rx fs ctx currentUri (c :: cs) true false]
    show chain_from (cond_truth rx fs ctx currentUri)
        (if false then _ || _ else true && cond_truth rx fs ctx currentUri c)
        c.or_next cs = _
    rw [if_neg (by simp), Bool.true_and]
    rfl

theorem hasDD_dropWhile :
    ∀ l : List Char, hasDD l = true →
      hasDD (l.dropWhile (fun c => c == '/')) = true
  | [], h => absurd h (by simp [hasDD])
  | [c], h => absurd h (by simp [hasDD])
  | c1 :: c2 :: r, h => by
    by_cases hc : (c1 == '/') = true
    · have hc1 : c1 = '/' := eq_of_beq hc
      rw [List.dropWhile_cons, if_pos hc]
      apply hasDD_dropWhile (c2 :: r)
      simpa [hasDD, hc1] using h
    · rw [List.dropWhile_cons, if_neg hc]
      exact h

/-- Claim C7: a request whose path contains `".."` (in particular any path
with a parent-directory traversal segment) is rejected with the 403
"Forbidden" outcome for every filesystem oracle, every virtual-host table
and every `Host` header — i.e. before any filesystem access and
independently of which virtual host (if any) resolves. -/
theorem c7_theorem (fs : FsOracle) (st : AppState) (host : HostHeader)
    (uriPath : String) (h : hasDD uriPath.data = true) :
    handle_request fs st host uriPath = Decision.forbidden := by
  unfold handle_request
  have hdd : hasDD (trimLeadingSlashes uriPath).data = true :=
    hasDD_dropWhile uriPath.data h
  rw [if_pos hdd]

/-- Witness for C7: the traversal request `/../x` is rejected. -/
theorem c7_witness :
    hasDD ("/../x" : String).data = true ∧
    handle_request fsNone stEmpty HostHeader.absent "/../x" = Decision.forbidden :=
  ⟨by decide, c7_theorem fsNone stEmpty HostHeader.absent "/../x" (by decide)⟩

/-- Claim C8: for a non-regex `RedirectRule` with a target, `matches`
succeeds exactly when the path equals `from` or starts with `from`
followed by `/`, and then yields the target concatenated with the
remainder of the path after the matched prefix; in particular the rule
from `/a` to `/b` matches `/a/c` yielding `/b/c` and does not match
`/ab`. -/
theorem c8_theorem :
    (∀ (rx : RegexEngine) (status : Nat) (fr t path : String),
      RedirectRule.matches rx
          { status := status, from_ := fr, to_ := some t, is_regex := false } path
        = if path == fr || strStartsWith path (fr ++ "/")
          then some (status, some (t ++ strDrop path fr.data.length))
          else none)
    ∧ (∀ rx : RegexEngine,
        RedirectRule.matches rx
            { status := 301, from_ := "/a", to_ := some "/b", is_regex := false } "/a/c"
          = some (301, some "/b/c")
        ∧ RedirectRule.matches rx
            { status := 301, from_ := "/a", to_ := some "/b", is_regex := false } "/ab"
          = none) := by
  constructor
  · intro rx status fr t path
    show (if path == fr || strStartsWith path (fr ++ "/") then _ else _) = _
    split <;> rfl
  · intro rx
    exact ⟨rfl, rfl⟩

/-- Claim C9: a malformed regex never aborts rule processing: a rule whose
effective pattern fails to compile is skipped and the loop continues with
the remaining rules unchanged, and a condition with a non-file-test
pattern that fails to compile evaluates to not-matched. -/
theorem c9_theorem :
    (∀ (rx : RegexEngine) (fs : FsOracle) (cfg : HtaccessConfig)
      (ctx : RewriteContext) (matchPath : String) (rule : RewriteRule)
      (rest : List RewriteRule) (cur : String),
      rx (eff_pattern rule) = none →
      apply_loop rx fs cfg ctx matchPath (rule :: rest) cur
        = apply_loop rx fs cfg ctx matchPath rest cur)
    ∧ (∀ (rx : RegexEngine) (fs : FsOracle) (tv pat : String) (nocase : Bool),
      (pat == "-f") = false → (pat == "-d") = false → (pat == "-s") = false →
      (pat == "-l") = false → (pat == "-F") = false →
      rx (if nocase then "(?i)" ++ pat else pat) = none →
      test_condition rx fs tv pat nocase = false) := by
  constructor
  · intro rx fs cfg ctx matchPath rule rest cur hrx
    by_cases hc : evaluate_conditions rx fs rule.conditions ctx cur = true
    · simp only [apply_loop, hc, hrx, Bool.not_true, Bool.false_eq_true, if_false]
    · simp only [apply_loop, eq_false_of_ne_true hc, Bool.not_false, if_true]
  · intro rx fs tv pat nocase h1 h2 h3 h4 h5 hrx
    simp only [test_condition, h1, h2, h3, h4, h5, Bool.false_eq_true, if_false, hrx]

/-- Witness for C9: with an engine that compiles nothing, a rule is
skipped and a condition test is false. -/
theorem c9_witness :
    rxFail (eff_pattern ruleA) = none ∧
    apply_loop rxFail fsNone cfgC1 ctxC1 "a" [ruleA, ruleB] "/a"
      = apply_loop rxFail fsNone cfgC1 ctxC1 "a" [ruleB] "/a" ∧
    test_condition rxFail fsNone "/tmp/x" "^(" false = false :=
  ⟨rfl,
    c9_theorem.1 rxFail fsNone cfgC1 ctxC1 "a" ruleA [ruleB] "/a" rfl,
    c9_theorem.2 rxFail fsNone "/tmp/x" "^(" false (by decide) (by decide)
      (by decide) (by decide) (by decide) rfl⟩

/-- Counterexample for C1: with the rules `^a$ → /b` and `^b$ → /c` and
the request URI `/a`, the first rule rewrites the current URI to `/b`, and
under the claim the second rule would then match the updated subject `b`
(as the second conjunct shows, its regex does match `"b"`), giving `/c`.
The code instead matches every rule against the subject derived once from
the original request URI, so the result is an internal rewrite to `/b`,
not `/c`. -/
theorem c1_counterexample :
    apply_rewrites rxC1 fsNone cfgC1 ctxC1
      = some (RewriteResult.internalRewrite "/b")
    ∧ (rxC1 "^b$").map (fun f => (f "b").isSome) = some true
    ∧ apply_rewrites rxC1 fsNone cfgC1 ctxC1
      ≠ some (RewriteResult.internalRewrite "/c") :=
  ⟨by decide, by decide, by decide⟩

/-- Claim C1 (amended): when the loop reaches a rule whose conditions pass
and whose pattern matches the (fixed) match subject, and the substituted
result is neither an absolute URL nor a redirect nor the skip marker nor
`last`-flagged, the finished result becomes the new current URI for the
remaining rules, while the match subject passed to the remaining rules
stays the one derived from the original request URI (it is not
re-derived from the updated current URI). -/
theorem c1_theorem (rx : RegexEngine) (fs : FsOracle) (cfg : HtaccessConfig)
    (ctx : RewriteContext) (matchPath : String) (rule : RewriteRule)
    (rest : List RewriteRule) (cur : String)
    (f : String → Option Caps) (caps : Caps)
    (hcond : evaluate_conditions rx fs rule.conditions ctx cur = true)
    (hrx : rx (eff_pattern rule) = some f)
    (hm : f matchPath = some caps)
    (hskip : (rule.substitution == "-") = false)
    (habs : (strStartsWith (substitute_backrefs rule.substitution caps) "http://"
      || strStartsWith (substitute_backrefs rule.substitution caps) "https://") = false)
    (hred : rule.redirect = none)
    (hlast : rule.last = false) :
    apply_loop rx fs cfg ctx matchPath (rule :: rest) cur
      = apply_loop rx fs cfg ctx matchPath rest
          (finish_uri cfg ctx rule (substitute_backrefs rule.substitution caps)) := by
  simp only [apply_loop, hcond, hrx, hm, hskip, habs, hred, hlast,
    Bool.not_true, Bool.false_eq_true, if_false]

/-- Witness for the amended C1 theorem at the concrete rule `^a$ → /b`. -/
theorem c1_witness :
    evaluate_conditions rxC1 fsNone ruleA.conditions ctxC1 "/a" = true ∧
    rxC1 (eff_pattern ruleA) = some funA ∧
    funA "a" = some capsA ∧
    apply_loop rxC1 fsNone cfgC1 ctxC1 "a" [ruleA, ruleB] "/a"
      = apply_loop rxC1 fsNone cfgC1 ctxC1 "a" [ruleB]
          (finish_uri cfgC1 ctxC1 ruleA (substitute_backrefs ruleA.substitution capsA)) :=
  ⟨by decide, rfl, rfl,
    c1_theorem rxC1 fsNone cfgC1 ctxC1 "a" ruleA [ruleB] "/a" funA capsA
      (by decide) rfl rfl (by decide) (by decide) rfl rfl⟩

theorem c6_loop_aux (rx : RegexEngine) (fs : FsOracle) (cfg : HtaccessConfig)
    (ctx : RewriteContext) (matchPath : String) (rule : RewriteRule)
    (rest : List RewriteRule) (cur : String)
    (f : String → Option Caps) (caps : Caps) (st : Nat)
    (hcond : evaluate_conditions rx fs rule.conditions ctx cur = true)
    (hrx : rx (eff_pattern rule) = some f)
    (hm : f matchPath = some caps)
    (hskip : (rule.substitution == "-") = false)
    (habs : (strStartsWith (substitute_backrefs rule.substitution caps) "http://"
      || strStartsWith (substitute_backrefs rule.substitution caps) "https://") = false)
    (hred : rule.redirect = some st) :
    apply_loop rx fs cfg ctx matchPath (rule :: rest) cur
      = Sum.inr (RewriteResult.redirect
          (finish_uri cfg ctx rule (substitute_backrefs rule.substitution caps)) st) := by
  simp only [apply_loop, hcond, hrx, hm, hskip, habs, hred,
    Bool.not_true, Bool.false_eq_true, if_false]

/-- Claim C6: a matched rule with a redirect status whose substituted
result is not an absolute URL returns an external redirect with that
status; the rewrite base is re-prefixed when the result is not an absolute
path, and the original query string is appended when `qsappend` is set and
the query string is non-empty.  The first part states this for the loop
reaching the rule; the second
part states it for `apply_rewrites` when the rule heads the rule list. -/
theorem c6_theorem :
    (∀ (rx : RegexEngine) (fs : FsOracle) (cfg : HtaccessConfig)
      (ctx : RewriteContext) (matchPath : String) (rule : RewriteRule)
      (rest : List RewriteRule) (cur : String)
      (f : String → Option Caps) (caps : Caps) (st : Nat),
      evaluate_conditions rx fs rule.conditions ctx cur = true →
      rx (eff_pattern rule) = some f →
      f matchPath = some caps →
      (rule.substitution == "-") = false →
      (strStartsWith (substitute_backrefs rule.substitution caps) "http://"
        || strStartsWith (substitute_backrefs rule.substitution caps) "https://") = false →
      rule.redirect = some st →
      apply_loop rx fs cfg ctx matchPath (rule :: rest) cur
        = Sum.inr (RewriteResult.redirect
            (if rule.qsappend && !(ctx.query_string == "") then
              if strContainsChar
                  (if strStartsWith (substitute_backrefs rule.substitution caps) "/"
                   then substitute_backrefs rule.substitution caps
                   else cfg.rewrite_base ++ substitute_backrefs rule.substitution caps) '?'
              then (if strStartsWith (substitute_backrefs rule.substitution caps) "/"
                    then substitute_backrefs rule.substitution caps
                    else cfg.rewrite_base ++ substitute_backrefs rule.substitution caps)
                   ++ "&" ++ ctx.query_string
              else (if strStartsWith (substitute_backrefs rule.substitution caps) "/"
                    then substitute_backrefs rule.substitution caps
                    else cfg.rewrite_base ++ substitute_backrefs rule.substitution caps)
                   ++ "?" ++ ctx.query_string
             else (if strStartsWith (substitute_backrefs rule.substitution caps) "/"
                   then substitute_backrefs rule.substitution caps
                   else cfg.rewrite_base ++ substitute_backrefs rule.substitution caps))
            st))
    ∧ (∀ (rx : RegexEngine) (fs : FsOracle) (cfg : HtaccessConfig)
      (ctx : RewriteContext) (rule : RewriteRule) (rest : List RewriteRule)
      (f : String → Option Caps) (caps : Caps) (st : Nat),
      cfg.rewrite_engine = true →
      cfg.rewrite_rules = rule :: rest →
      evaluate_conditions rx fs rule.conditions ctx ctx.request_uri = true →
      rx (eff_pattern rule) = some f →
      f (strip_base cfg ctx.request_uri) = some caps →
      (rule.substitution == "-") = false →
      (strStartsWith (substitute_backrefs rule.substitution caps) "http://"
        || strStartsWith (substitute_backrefs rule.substitution caps) "https://") = false →
      rule.redirect = some st →
      apply_rewrites rx fs cfg ctx
        = some (RewriteResult.redirect
            (finish_uri cfg ctx rule (substitute_backrefs rule.substitution caps)) st)) := by
  constructor
  · intro rx fs cfg ctx matchPath rule rest cur f caps st hcond hrx hm hskip habs hred
    exact c6_loop_aux rx fs cfg ctx matchPath rule rest cur f caps st
      hcond hrx hm hskip habs hred
  · intro rx fs cfg ctx rule rest f caps st heng hrules hcond hrx hm hskip habs hred
    unfold apply_rewrites
    rw [heng, hrules]
    simp only [Bool.not_true, Bool.false_eq_true, if_false,
      c6_loop_aux rx fs cfg ctx (strip_base cfg ctx.request_uri) rule rest
        ctx.request_uri f caps st hcond hrx hm hskip habs hred]

/-- Witness for C6: rule `^a$ → /b [R=301,QSA]` with query string `x=1`
yields the external redirect `/b?x=1` with status 301. -/
theorem c6_witness :
    cfg6.rewrite_engine = true ∧
    cfg6.rewrite_rules = [rule6] ∧
    rxC1 (eff_pattern rule6) = some funA ∧
    funA (strip_base cfg6 ctx6.request_uri) = some capsA ∧
    apply_rewrites rxC1 fsNone cfg6 ctx6
      = some (RewriteResult.redirect
          (finish_uri cfg6 ctx6 rule6 (substitute_backrefs rule6.substitution capsA)) 301) :=
  ⟨rfl, rfl, rfl, by decide,
    c6_theorem.2 rxC1 fsNone cfg6 ctx6 rule6 [] funA capsA 301
      rfl rfl (by decide) rfl (by decide) (by decide) (by decide) rfl⟩

theorem takeWhile_append_stop (q : Char → Bool) :
    ∀ (l₁ : List Char) (c : Char) (l₂ : List Char),
      (∀ x ∈ l₁, q x = true) → q c = false →
      (l₁ ++ c :: l₂).takeWhile q = l₁
  | [], c, l₂, _, hc => by simp [List.takeWhile_cons, hc]
  | x :: xs, c, l₂, h₁, hc => by
    have hx : q x = true := h₁ x (List.mem_cons_self x xs)
    simp only [List.cons_append, List.takeWhile_cons, hx, if_true]
    rw [takeWhile_append_stop q xs c l₂ (fun y hy => h₁ y (List.mem_cons_of_mem x hy)) hc]

theorem endsWith_slash_rev (a : String) (h : strEndsWith a "/" = true) :
    ∃ r, a.data.reverse = '/' :: r := by
  have h' : (['/'] : List Char).isPrefixOf a.data.reverse = true := h
  cases hr : a.data.reverse with
  | nil => rw [hr] at h'; exact absurd h' (by decide)
  | cons c r =>
    rw [hr] at h'
    have hc : c = '/' := by
      simp only [List.isPrefixOf, Bool.and_eq_true] at h'
      exact (eq_of_beq h'.1).symm
    exact ⟨r, by rw [hc]⟩

theorem joinPath_rev (a nm : String) :
    ∃ r, (joinPath a nm).data.reverse = nm.data.reverse ++ '/' :: r := by
  unfold joinPath
  by_cases h : strEndsWith a "/" = true
  · rw [if_pos h]
    obtain ⟨r, hr⟩ := endsWith_slash_rev a h
    refine ⟨r, ?_⟩
    calc (a ++ nm).data.reverse = (a.data ++ nm.data).reverse := rfl
    _ = nm.data.reverse ++ a.data.reverse := List.reverse_append _ _
    _ = nm.data.reverse ++ '/' :: r := by rw [hr]
  · rw [if_neg h]
    refine ⟨a.data.reverse, ?_⟩
    calc (a ++ "/" ++ nm).data.reverse
        = ((a.data ++ ['/']) ++ nm.data).reverse := rfl
    _ = nm.data.reverse ++ (a.data ++ ['/']).reverse := List.reverse_append _ _
    _ = nm.data.reverse ++ '/' :: a.data.reverse := by
        rw [List.reverse_append]; rfl

theorem pathExtension_join_php (a : String) :
    pathExtension (joinPath a "index.php") = some "php" := by
  obtain ⟨r, hr⟩ := joinPath_rev a "index.php"
  have hseg : ("index.php" : String).data.reverse
      = ['p', 'h', 'p', '.', 'x', 'e', 'd', 'n', 'i'] := by decide
  rw [hseg] at hr
  unfold pathExtension
  rw [hr, takeWhile_append_stop _ _ _ _ (by decide) (by decide)]
  decide

theorem pathExtension_join_html (a : String) :
    pathExtension (joinPath a "index.html") = some "html" := by
  obtain ⟨r, hr⟩ := joinPath_rev a "index.html"
  have hseg : ("index.html" : String).data.reverse
      = ['l', 'm', 't', 'h', '.', 'x', 'e', 'd', 'n', 'i'] := by decide
  rw [hseg] at hr
  unfold pathExtension
  rw [hr, takeWhile_append_stop _ _ _ _ (by decide) (by decide)]
  decide

theorem joinPath_data (a b : String) :
    (joinPath a b).data
      = if strEndsWith a "/" then a.data ++ b.data else a.data ++ '/' :: b.data := by
  unfold joinPath
  split
  · rfl
  · show ((a.data ++ ['/']) ++ b.data) = _
    rw [List.append_assoc]
    rfl

theorem joinPath_ne (a b : String) (hb : b.data ≠ []) : joinPath a b ≠ a := by
  intro h
  have hlen := congrArg (fun s : String => s.data.length) h
  simp only [joinPath_data] at hlen
  have hbpos : 0 < b.data.length := List.length_pos.mpr hb
  by_cases hs : strEndsWith a "/" = true
  · rw [if_pos hs] at hlen
    simp only [List.length_append] at hlen
    omega
  · rw [if_neg hs] at hlen
    simp only [List.length_append, List.length_cons] at hlen
    omega

/-- Claim C10: when the resolved filesystem path is a directory (and the
request passes the traversal check), `handle_request` serves `index.php`
from that directory when it exists, otherwise `index.html` when it exists,
otherwise returns the 403 "Directory listing denied" outcome; it never
serves the directory itself. -/
theorem c10_theorem (fs : FsOracle) (st : AppState) (host : HostHeader)
    (uriPath : String)
    (hdd : hasDD (trimLeadingSlashes uriPath).data = false)
    (hdir : fs.isDir (resolved_path st host uriPath) = true) :
    (fs.pathExists (joinPath (resolved_path st host uriPath) "index.php") = true →
      handle_request fs st host uriPath
        = Decision.phpScript (joinPath (resolved_path st host uriPath) "index.php"))
    ∧ (fs.pathExists (joinPath (resolved_path st host uriPath) "index.php") = false →
      fs.pathExists (joinPath (resolved_path st host uriPath) "index.html") = true →
      handle_request fs st host uriPath
        = Decision.staticFile (joinPath (resolved_path st host uriPath) "index.html"))
    ∧ (fs.pathExists (joinPath (resolved_path st host uriPath) "index.php") = false →
      fs.pathExists (joinPath (resolved_path st host uriPath) "index.html") = false →
      handle_request fs st host uriPath = Decision.dirDenied)
    ∧ handle_request fs st host uriPath
        ≠ Decision.phpScript (resolved_path st host uriPath)
    ∧ handle_request fs st host uriPath
        ≠ Decision.staticFile (resolved_path st host uriPath) := by
  have h1 : fs.pathExists (joinPath (resolved_path st host uriPath) "index.php") = true →
      handle_request fs st host uriPath
        = Decision.phpScript (joinPath (resolved_path st host uriPath) "index.php") := by
    intro hphp
    unfold handle_request
    rw [if_neg (by rw [hdd]; exact Bool.false_ne_true)]
    unfold resolve_index
    rw [if_pos hdir, if_pos hphp]
    simp only [hphp, Bool.not_true, Bool.false_eq_true, if_false, pathExtension_join_php]
    rfl
  have h2 : fs.pathExists (joinPath (resolved_path st host uriPath) "index.php") = false →
      fs.pathExists (joinPath (resolved_path st host uriPath) "index.html") = true →
      handle_request fs st host uriPath
        = Decision.staticFile (joinPath (resolved_path st host uriPath) "index.html") := by
    intro hphp hhtml
    unfold handle_request
    rw [if_neg (by rw [hdd]; exact Bool.false_ne_true)]
    unfold resolve_index
    rw [if_pos hdir, if_neg (by rw [hphp]; exact Bool.false_ne_true), if_pos hhtml]
    simp only [hhtml, Bool.not_true, Bool.false_eq_true, if_false, pathExtension_join_html]
    rfl
  have h3 : fs.pathExists (joinPath (resolved_path st host uriPath) "index.php") = false →
      fs.pathExists (joinPath (resolved_path st host uriPath) "index.html") = false →
      handle_request fs st host uriPath = Decision.dirDenied := by
    intro hphp hhtml
    unfold handle_request
    rw [if_neg (by rw [hdd]; exact Bool.false_ne_true)]
    unfold resolve_index
    rw [if_pos hdir, if_neg (by rw [hphp]; exact Bool.false_ne_true),
      if_neg (by rw [hhtml]; exact Bool.false_ne_true)]
  refine ⟨h1, h2, h3, ?_, ?_⟩
  · by_cases hphp : fs.pathExists (joinPath (resolved_path st host uriPath) "index.php") = true
    · rw [h1 hphp]
      intro heq
      exact joinPath_ne (resolved_path st host uriPath) "index.php" (by decide)
        (Decision.phpScript.inj heq)
    · by_cases hhtml :
        fs.pathExists (joinPath (resolved_path st host uriPath) "index.html") = true
      · rw [h2 (eq_false_of_ne_true hphp) hhtml]
        simp
      · rw [h3 (eq_false_of_ne_true hphp) (eq_false_of_ne_true hhtml)]
        simp
  · by_cases hphp : fs.pathExists (joinPath (resolved_path st host uriPath) "index.php") = true
    · rw [h1 hphp]
      simp
    · by_cases hhtml :
        fs.pathExists (joinPath (resolved_path st host uriPath) "index.html") = true
      · rw [h2 (eq_false_of_ne_true hphp) hhtml]
        intro heq
        exact joinPath_ne (resolved_path st host uriPath) "index.html" (by decide)
          (Decision.staticFile.inj heq)
      · rw [h3 (eq_false_of_ne_true hphp) (eq_false_of_ne_true hhtml)]
        simp

/-- Witness for C10: request `/dir` against a filesystem where
`public/dir` is a directory containing `index.php`: the handler delegates
that script. -/
theorem c10_witness :
    hasDD (trimLeadingSlashes "/dir").data = false ∧
    fs10.isDir (resolved_path stEmpty HostHeader.absent "/dir") = true ∧
    fs10.pathExists (joinPath (resolved_path stEmpty HostHeader.absent "/dir") "index.php")
      = true ∧
    handle_request fs10 stEmpty HostHeader.absent "/dir"
      = Decision.phpScript
          (joinPath (resolved_path stEmpty HostHeader.absent "/dir") "index.php") :=
  ⟨by decide, by decide, by decide,
    (c10_theorem fs10 stEmpty HostHeader.absent "/dir" (by decide) (by decide)).1
      (by decide)⟩

theorem process_line_spec (st : ParseState) (l : String) :
    (process_line st l).cfg.rewrite_rules
      = st.cfg.rewrite_rules ++
        (match classify_line l with
         | LineKind.rule r => [{ r with conditions := st.pending }]
         | _ => [])
    ∧ (process_line st l).pending
      = (match classify_line l with
         | LineKind.cond c => st.pending ++ [c]
         | LineKind.rule _ => []
         | LineKind.other => st.pending) := by
  simp only [process_line, classify_line]
  by_cases h0 : (strTrim l == "" || strStartsWith (strTrim l) "#") = true
  · simp [h0]
  simp only [eq_false_of_ne_true h0, Bool.false_eq_true, if_false]
  by_cases h1 : (strStartsWith (strTrim l) "<IfModule"
      || strStartsWith (strTrim l) "</IfModule") = true
  · simp [h1]
  simp only [eq_false_of_ne_true h1, Bool.false_eq_true, if_false]
  by_cases h2 : eqIgnoreAsciiCase (strTrim l) "RewriteEngine On" = true
  · simp [h2]
  simp only [eq_false_of_ne_true h2, Bool.false_eq_true, if_false]
  by_cases h3 : eqIgnoreAsciiCase (strTrim l) "RewriteEngine Off" = true
  · simp [h3]
  simp only [eq_false_of_ne_true h3, Bool.false_eq_true, if_false]
  by_cases h4 : strStartsWith (strTrim l) "RewriteBase" = true
  · simp only [h4, if_true]
    constructor
    · split <;> simp
    · split <;> simp
  simp only [eq_false_of_ne_true h4, Bool.false_eq_true, if_false]
  by_cases h5 : strStartsWith (strTrim l) "RewriteCond" = true
  · simp only [h5, if_true]
    cases hpc : parse_rewrite_cond (strTrim l) <;> simp [hpc]
  simp only [eq_false_of_ne_true h5, Bool.false_eq_true, if_false]
  by_cases h6 : strStartsWith (strTrim l) "RewriteRule" = true
  · simp only [h6, if_true]
    cases hpr : parse_rewrite_rule (strTrim l) <;> simp [hpr]
  simp only [eq_false_of_ne_true h6, Bool.false_eq_true, if_false]
  by_cases h7 : strStartsWith (strTrim l) "Redirect" = true
  · simp only [h7, if_true]
    constructor
    · repeat' split
      all_goals simp
    · repeat' split
      all_goals simp
  simp only [eq_false_of_ne_true h7, Bool.false_eq_true, if_false]
  simp

theorem foldl_process_rules :
    ∀ (lines : List String) (st : ParseState),
      (lines.foldl process_line st).cfg.rewrite_rules
        = st.cfg.rewrite_rules ++ spec_rules st.pending lines := by
  intro lines
  induction lines with
  | nil => intro st; simp [spec_rules]
  | cons l ls ih =>
    intro st
    rw [List.foldl_cons, ih]
    have h1 := (process_line_spec st l).1
    have h2 := (process_line_spec st l).2
    cases hcl : classify_line l with
    | cond c =>
      rw [hcl] at h1 h2
      simp at h1 h2
      rw [h1, h2]
      simp only [spec_rules, hcl]
    | rule r =>
      rw [hcl] at h1 h2
      simp at h1 h2
      rw [h1, h2]
      simp only [spec_rules, hcl, List.append_assoc, List.singleton_append]
    | other =>
      rw [hcl] at h1 h2
      simp at h1 h2
      rw [h1, h2]
      simp only [spec_rules, hcl]

/-- Counterexample for C5: in
`RewriteCond %\x7bHTTPS\x7d off` / `RewriteRule bad` / `RewriteRule ^a$ /b`
the middle line is a RewriteRule line (it fails to parse, having no
substitution, so it does not consume the pending conditions).  The claim
says no rule receives conditions declared above an earlier RewriteRule
line, yet the parsed rule `^a$ → /b` receives the condition declared above
the intervening `RewriteRule bad` line. -/
theorem c5_counterexample :
    (parse_htaccess_content
        "RewriteCond %{HTTPS} off\nRewriteRule bad\nRewriteRule ^a$ /b").rewrite_rules
      = [{ pattern := "^a$", substitution := "/b",
           conditions := [{ test_string := "%{HTTPS}", pattern := "off",
                            negate := false, nocase := false, or_next := false }],
           last := false, redirect := none, nocase := false, qsappend := false,
           passthrough := false, skip := false }] := by
  decide

/-- Claim C5 (amended): `parse_htaccess_content` attaches to each
successfully parsed RewriteRule exactly the successfully parsed
RewriteCond entries declared above it and after the last line that itself
parsed as a RewriteRule (malformed RewriteRule lines do not break the
chain), each condition being consumed by exactly one rule — i.e. the
parser's rule list equals `spec_rules`, the direct transcription of that
pairing discipline. -/
theorem c5_theorem (content : String) :
    (parse_htaccess_content content).rewrite_rules
      = spec_rules [] (rustLines content) := by
  unfold parse_htaccess_content
  rw [foldl_process_rules]
  rfl

theorem phl_status_skip (acc : Nat × List (String × String)) (line : String)
    (h : lineIsStatus line = false) :
    (process_header_line acc line).1 = acc.1 := by
  unfold process_header_line
  unfold lineIsStatus at h
  cases hs : splitOnceChar ':' line.data with
  | none => simp only [hs]
  | some kv =>
    simp only [hs] at h ⊢
    simp only [h, Bool.false_eq_true, if_false]
    cases hn : headerNameNorm (strTrim ⟨kv.1⟩)
    · simp [hn]
    · simp only [hn]
      split <;> rfl

theorem foldl_status_skip :
    ∀ (lines : List String) (acc : Nat × List (String × String)),
      lines.all (fun l => !lineIsStatus l) = true →
      (lines.foldl process_header_line acc).1 = acc.1
  | [], _, _ => rfl
  | l :: ls, acc, h => by
    have hparts := h
    rw [List.all_cons] at hparts
    have hl : lineIsStatus l = false := by
      have h1 := (Bool.and_eq_true _ _).mp hparts |>.1
      simpa using h1
    have h2 := (Bool.and_eq_true _ _).mp hparts |>.2
    rw [List.foldl_cons]
    calc (ls.foldl process_header_line (process_header_line acc l)).1
        = (process_header_line acc l).1 := foldl_status_skip ls _ h2
    _ = acc.1 := phl_status_skip acc l hl

theorem map_fst_replace (k v : String) :
    ∀ hs : List (String × String),
      (hs.map (fun p => if p.1 == k then (p.1, v) else p)).map Prod.fst
        = hs.map Prod.fst
  | [] => rfl
  | p :: ps => by
    simp only [List.map_cons, map_fst_replace k v ps]
    congr 1
    split <;> rfl

theorem insertHeader_key_mem (k v : String) (hs : List (String × String)) :
    k ∈ (insertHeader k v hs).map Prod.fst := by
  unfold insertHeader
  split
  · rename_i hany
    rw [map_fst_replace]
    obtain ⟨p, hp, hpk⟩ := List.any_eq_true.mp hany
    have hk : p.1 = k := eq_of_beq hpk
    rw [← hk]
    exact List.mem_map_of_mem Prod.fst hp
  · simp

theorem insertHeader_mem_mono (k k' v : String) (hs : List (String × String))
    (h : k ∈ hs.map Prod.fst) : k ∈ (insertHeader k' v hs).map Prod.fst := by
  unfold insertHeader
  split
  · rw [map_fst_replace]
    exact h
  · rw [List.map_append]
    exact List.mem_append_left _ h

theorem phl_mem_mono (acc : Nat × List (String × String)) (line : String)
    (k : String) (h : k ∈ acc.2.map Prod.fst) :
    k ∈ (process_header_line acc line).2.map Prod.fst := by
  unfold process_header_line
  cases hs : splitOnceChar ':' line.data with
  | none => simp only [hs]; exact h
  | some kv =>
    simp only [hs]
    repeat' split
    all_goals
      first
      | exact h
      | exact insertHeader_mem_mono k _ _ acc.2 h

theorem foldl_mem_mono :
    ∀ (lines : List String) (acc : Nat × List (String × String)) (k : String),
      k ∈ acc.2.map Prod.fst →
      k ∈ (lines.foldl process_header_line acc).2.map Prod.fst
  | [], _, _, h => h
  | l :: ls, acc, k, h => foldl_mem_mono ls _ k (phl_mem_mono acc l k h)

theorem phl_adds (acc : Nat × List (String × String)) (line : String)
    (hn : String) (h : wellFormedHeaderName line = some hn) :
    hn ∈ (process_header_line acc line).2.map Prod.fst := by
  unfold wellFormedHeaderName at h
  cases hs : splitOnceChar ':' line.data with
  | none => rw [hs] at h; exact absurd h (by simp)
  | some kv =>
    simp only [hs] at h
    by_cases hst : lineIsStatus line = true
    · rw [if_pos hst] at h
      exact absurd h (by simp)
    · rw [if_neg hst] at h
      cases hnm : headerNameNorm (strTrim ⟨kv.1⟩) with
      | none => simp only [hnm] at h; exact absurd h (by simp)
      | some hn' =>
        simp only [hnm] at h
        by_cases hv : validHeaderValue (strTrim ⟨kv.2⟩) = true
        · rw [if_pos hv] at h
          have hhn : hn' = hn := Option.some.inj h
          unfold process_header_line
          simp only [hs]
          have hstf : eqIgnoreAsciiCase (strTrim ⟨kv.1⟩) "Status" = false := by
            have h2 := hst
            unfold lineIsStatus at h2
            simp only [hs] at h2
            exact eq_false_of_ne_true h2
          simp only [hstf, Bool.false_eq_true, if_false, hnm, hv, if_true]
          exact hhn ▸ insertHeader_key_mem hn' (strTrim ⟨kv.2⟩) acc.2
        · rw [if_neg hv] at h
          exact absurd h (by simp)

/-- Counterexample for C2: the backend output `A: 1\r\nA: 2\r\n\r\nx`
contains two well-formed header lines with the same name, but
`parse_php_response` keeps only the last one (`HeaderMap::insert`
replaces), so the well-formed line `A: 1` is not copied into the
response, contradicting the claim that every well-formed header line is
copied. -/
theorem c2_counterexample :
    parse_php_response (asciiBytes "A: 1\r\nA: 2\r\n\r\nx")
      = { status := 200, headers := [("a", "2")], body := asciiBytes "x" } := by
  decide

/-- Claim C2 (amended): `parse_php_response` splits at the first
`\r\n\r\n`; without a separator the whole output is the body with status
200 and no headers; with a separator the body is everything after it, a
case-insensitive `Status` header sets the status from its leading numeric
token (200 when no such header is present), and every well-formed
non-`Status` header line contributes its (case-normalized) name to the
response headers — with a repeated name keeping only the last line's
value.  The concrete example parses to status 404, one `Content-Type`
header and body `missing`. -/
theorem c2_theorem :
    (∀ b : List Nat, findSep b = none →
      parse_php_response b = { status := 200, headers := [], body := b })
    ∧ parse_php_response
        (asciiBytes "Status: 404 Not Found\r\nContent-Type: text/plain\r\n\r\nmissing")
      = { status := 404, headers := [("content-type", "text/plain")],
          body := asciiBytes "missing" }
    ∧ (∀ (b : List Nat) (i : Nat), findSep b = some i →
        (parse_php_response b).body = b.drop (i + 4))
    ∧ (∀ s : String, (strSplitSub s "\r\n").all (fun l => !lineIsStatus l) = true →
        (process_headers s).1 = 200)
    ∧ (∀ (s line hn : String),
        line ∈ strSplitSub s "\r\n" → wellFormedHeaderName line = some hn →
        hn ∈ (process_headers s).2.map Prod.fst) := by
  refine ⟨?_, by decide, ?_, ?_, ?_⟩
  · intro b h
    unfold parse_php_response
    rw [h]
  · intro b i h
    unfold parse_php_response
    simp only [h]
    split <;> rfl
  · intro s h
    unfold process_headers
    exact foldl_status_skip _ _ h
  · intro s line hn hmem hwf
    unfold process_headers
    obtain ⟨l1, l2, hsplit⟩ := List.append_of_mem hmem
    rw [hsplit, List.foldl_append, List.foldl_cons]
    exact foldl_mem_mono l2 _ hn (phl_adds _ line hn hwf)

/-- Witness for C2 at concrete inputs: no separator gives status 200 with
the whole output as body; with a separator the body follows it; a header
block with no `Status` line keeps status 200 and records the name of its
well-formed header line. -/
theorem c2_witness :
    findSep (asciiBytes "hello") = none ∧
    parse_php_response (asciiBytes "hello")
      = { status := 200, headers := [], body := asciiBytes "hello" } ∧
    findSep (asciiBytes "A: 1\r\n\r\nbody") = some 4 ∧
    (parse_php_response (asciiBytes "A: 1\r\n\r\nbody")).body
      = (asciiBytes "A: 1\r\n\r\nbody").drop 8 ∧
    (process_headers "A: 1").1 = 200 ∧
    "a" ∈ (process_headers "A: 1").2.map Prod.fst :=
  ⟨by decide,
    c2_theorem.1 (asciiBytes "hello") (by decide),
    by decide,
    c2_theorem.2.2.1 (asciiBytes "A: 1\r\n\r\nbody") 4 (by decide),
    c2_theorem.2.2.2.1 "A: 1" (by decide),
    c2_theorem.2.2.2.2 "A: 1" "A: 1" "a" (by decide) (by decide)⟩

end Wolfserve
